import Mathlib

/-!
Verification of the recipe-generation handler (`lambda_function.py`).

The development shallowly embeds the module's pure decision logic:

* `JValue` / `loads` model Python's `json.loads` on the JSON subset the
  handler exercises (objects, arrays, strings with escapes, integers and
  lexed float literals, booleans, null, strict whole-input decoding with
  an "Extra data" check, as in `json.decoder`).
* `_parse_recipe_response`, `_create_fallback_recipe` embed the
  `RecipeGenerator` methods of the same name.  The fresh uuid and the
  `datetime.utcnow().isoformat()` timestamp are the only effects of those
  methods; they enter the embedding as the explicit parameters `freshId`
  and `createdAt`.  Note that in Python the `raise ValueError` for a
  missing brace is *not* caught by `except json.JSONDecodeError`
  (a plain `ValueError` is not a `JSONDecodeError`), so that path is an
  `Except.error`, re-raised by the trailing `except Exception: raise`.
* `_build_prompt` embeds the prompt builder, including the full footer
  literal.
* `lambda_handler` embeds the HTTP handler; the Bedrock call and the
  DynamoDB `put_item` are external collaborators and enter as the
  parameters `inference` (the generated text, or a failure) and `dbOk`
  (whether `put_item` succeeds).  The output records which collaborators
  were invoked.
-/

/-- A Python value produced by `json.loads`: `None`, `bool`, `int`,
`float` (kept as its source lexeme, which no claim inspects), `str`,
`list`, `dict` (an insertion-ordered association list, as Python dicts
are). -/
inductive JValue where
  | jnull : JValue
  | jbool : Bool → JValue
  | jnum : Int → JValue
  | jnumf : List Char → JValue
  | jstr : String → JValue
  | jarr : List JValue → JValue
  | jobj : List (String × JValue) → JValue

/-- A Python dict with string keys, in insertion order. -/
abbrev RecipeDict := List (String × JValue)

/-- `d[k]` lookup on a Python dict (keys are unique by construction). -/
def dictGet : RecipeDict → String → Option JValue
  | [], _ => none
  | (k', v) :: t, k => if k' = k then some v else dictGet t k

/-- `d.get(k, dflt)`. -/
def dictGetD (d : RecipeDict) (k : String) (dflt : JValue) : JValue :=
  (dictGet d k).getD dflt

/-- `d[k] = v`: overwrite in place if the key exists, else append
(Python dicts keep the original position of an overwritten key). -/
def setKey : RecipeDict → String → JValue → RecipeDict
  | [], k, v => [(k, v)]
  | (k', v') :: t, k, v => if k' = k then (k, v) :: t else (k', v') :: setKey t k v

/-- JSON whitespace, as in `json.decoder` (space, tab, newline, return). -/
def isJWs (c : Char) : Bool := c = ' ' || c = '\t' || c = '\n' || c = '\r'

def skipWs (cs : List Char) : List Char := cs.dropWhile isJWs

def hexVal (c : Char) : Option Nat :=
  if '0' ≤ c ∧ c ≤ '9' then some (c.toNat - '0'.toNat)
  else if 'a' ≤ c ∧ c ≤ 'f' then some (c.toNat - 'a'.toNat + 10)
  else if 'A' ≤ c ∧ c ≤ 'F' then some (c.toNat - 'A'.toNat + 10)
  else none

/-- The two-character escapes accepted inside a JSON string. -/
def escChar : Char → Option Char
  | '"' => some '"'
  | '\\' => some '\\'
  | '/' => some '/'
  | 'b' => some '\x08'
  | 'f' => some '\x0c'
  | 'n' => some '\n'
  | 'r' => some '\r'
  | 't' => some '\t'
  | _ => none

/-- Scan a JSON string body after the opening quote; returns the decoded
characters and the input remaining after the closing quote. -/
def parseStringRest : List Char → Except String (List Char × List Char)
  | [] => Except.error "Unterminated string"
  | c :: cs =>
    if c = '"' then Except.ok ([], cs)
    else if c = '\\' then
      match cs with
      | [] => Except.error "Unterminated string"
      | 'u' :: h1 :: h2 :: h3 :: h4 :: cs2 =>
        match hexVal h1, hexVal h2, hexVal h3, hexVal h4 with
        | some a, some b, some c2, some d =>
          match parseStringRest cs2 with
          | Except.ok (s, r) =>
            Except.ok (Char.ofNat (((a * 16 + b) * 16 + c2) * 16 + d) :: s, r)
          | Except.error e => Except.error e
        | _, _, _, _ => Except.error "Invalid hex escape"
      | e :: cs2 =>
        match escChar e with
        | some d =>
          match parseStringRest cs2 with
          | Except.ok (s, r) => Except.ok (d :: s, r)
          | Except.error e2 => Except.error e2
        | none => Except.error "Invalid escape"
    else if c.val < 32 then Except.error "Invalid control character"
    else
      match parseStringRest cs with
      | Except.ok (s, r) => Except.ok (c :: s, r)
      | Except.error e => Except.error e

def digitsToNat (ds : List Char) : Nat :=
  ds.foldl (fun a c => a * 10 + (c.toNat - '0'.toNat)) 0

/-- Scan a JSON number, following the `json` module's regex
`-?(0|[1-9][0-9]*)([.][0-9]+)?([eE][+-]?[0-9]+)?`: an integer becomes a
Python `int`, anything with a fraction or exponent a `float` (kept as
its lexeme). -/
def parseNum (cs : List Char) : Except String (JValue × List Char) :=
  let (neg, cs1) := match cs with
    | '-' :: t => (true, t)
    | _ => (false, cs)
  match cs1 with
  | [] => Except.error "Expecting value"
  | d :: t =>
    if ¬ d.isDigit then Except.error "Expecting value"
    else
      let (ints, rest1) :=
        if d = '0' then ([d], t)
        else (d :: t.takeWhile Char.isDigit, t.dropWhile Char.isDigit)
      let (fracs, rest2) := match rest1 with
        | '.' :: u =>
          match u.takeWhile Char.isDigit with
          | [] => (([] : List Char), rest1)
          | ds => ('.' :: ds, u.dropWhile Char.isDigit)
        | _ => (([] : List Char), rest1)
      let (exps, rest3) := match rest2 with
        | e :: u =>
          if e = 'e' ∨ e = 'E' then
            let (sgn, u2) := match u with
              | '+' :: w => ((['+'] : List Char), w)
              | '-' :: w => ((['-'] : List Char), w)
              | _ => (([] : List Char), u)
            match u2.takeWhile Char.isDigit with
            | [] => (([] : List Char), rest2)
            | ds => (e :: (sgn ++ ds), u2.dropWhile Char.isDigit)
          else (([] : List Char), rest2)
        | _ => (([] : List Char), rest2)
      if fracs = [] ∧ exps = [] then
        let n : Int := (digitsToNat ints : Nat)
        Except.ok (JValue.jnum (if neg then -n else n), rest3)
      else
        Except.ok (JValue.jnumf ((if neg then ['-'] else []) ++ ints ++ fracs ++ exps), rest3)

/-- Parser mode: a value, the members of an object after `\x7b` or a
comma, or the items of an array after `[` or a comma.  The `Bool` says
whether we are right after the opening bracket (where an immediate
closing bracket is legal). -/
inductive PMode where
  | pval : PMode
  | pmembers : Bool → RecipeDict → PMode
  | pitems : Bool → List JValue → PMode

/-- The recursive-descent scanner of the `json` module, structural on a
fuel counter (`loads` supplies enough fuel for its input).  Object
members accumulate with `setKey`, so a duplicated key keeps its first
position and the last value, as for Python dicts. -/
def parseRun : Nat → PMode → List Char → Except String (JValue × List Char)
  | 0, _, _ => Except.error "Recursion limit exceeded"
  | Nat.succ f, PMode.pval, cs =>
    (match cs with
     | [] => Except.error "Expecting value"
     | c :: rest =>
       if c = '\x7b' then parseRun f (PMode.pmembers true []) rest
       else if c = '[' then parseRun f (PMode.pitems true []) rest
       else if c = '"' then
         match parseStringRest rest with
         | Except.ok (s, r) => Except.ok (JValue.jstr (String.mk s), r)
         | Except.error e => Except.error e
       else if c = 't' then
         match rest with
         | 'r' :: 'u' :: 'e' :: r => Except.ok (JValue.jbool true, r)
         | _ => Except.error "Expecting value"
       else if c = 'f' then
         match rest with
         | 'a' :: 'l' :: 's' :: 'e' :: r => Except.ok (JValue.jbool false, r)
         | _ => Except.error "Expecting value"
       else if c = 'n' then
         match rest with
         | 'u' :: 'l' :: 'l' :: r => Except.ok (JValue.jnull, r)
         | _ => Except.error "Expecting value"
       else if c = '-' ∨ c.isDigit then parseNum (c :: rest)
       else Except.error "Expecting value")
  | Nat.succ f, PMode.pmembers first acc, cs =>
    (match skipWs cs with
     | [] => Except.error "Expecting property name enclosed in double quotes"
     | c :: rest =>
       if first ∧ c = '\x7d' then Except.ok (JValue.jobj [], rest)
       else if c = '"' then
         match parseStringRest rest with
         | Except.error e => Except.error e
         | Except.ok (ks, r1) =>
           match skipWs r1 with
           | ':' :: r2 =>
             match parseRun f PMode.pval (skipWs r2) with
             | Except.error e => Except.error e
             | Except.ok (v, r3) =>
               match skipWs r3 with
               | ',' :: r4 => parseRun f (PMode.pmembers false (setKey acc (String.mk ks) v)) r4
               | '\x7d' :: r4 => Except.ok (JValue.jobj (setKey acc (String.mk ks) v), r4)
               | _ => Except.error "Expecting comma delimiter"
           | _ => Except.error "Expecting colon delimiter"
       else Except.error "Expecting property name enclosed in double quotes")
  | Nat.succ f, PMode.pitems first acc, cs =>
    (match skipWs cs with
     | [] => Except.error "Expecting value"
     | c :: rest =>
       if first ∧ c = ']' then Except.ok (JValue.jarr [], rest)
       else
         match parseRun f PMode.pval (c :: rest) with
         | Except.error e => Except.error e
         | Except.ok (v, r1) =>
           match skipWs r1 with
           | ',' :: r2 => parseRun f (PMode.pitems false (acc ++ [v])) r2
           | ']' :: r2 => Except.ok (JValue.jarr (acc ++ [v]), r2)
           | _ => Except.error "Expecting comma delimiter")

/-- `json.loads`: strict decoding of the whole input, leading and
trailing whitespace allowed, anything else after the first value is an
"Extra data" error. -/
def loads (s : String) : Except String JValue :=
  match parseRun (s.data.length + 1) PMode.pval (skipWs s.data) with
  | Except.error e => Except.error e
  | Except.ok (v, rest) =>
    if (skipWs rest).isEmpty then Except.ok v else Except.error "Extra data"

/-- Index of the first occurrence of `c`, if any. -/
def findIdxOpt (c : Char) : List Char → Option Nat
  | [] => none
  | x :: t => if x = c then some 0 else (findIdxOpt c t).map (· + 1)

/-- Python `str.find`: index of the first occurrence, `-1` if absent. -/
def pyFind (s : String) (c : Char) : Int :=
  match findIdxOpt c s.data with
  | some i => (i : Int)
  | none => -1

/-- Python `str.rfind`: index of the last occurrence, `-1` if absent. -/
def pyRfind (s : String) (c : Char) : Int :=
  match findIdxOpt c s.data.reverse with
  | some i => ((s.data.length - 1 - i : Nat) : Int)
  | none => -1

/-- The slice `response_text[start_idx:end_idx]` taken by
`_parse_recipe_response`, with `start_idx = find(chr(123))` and
`end_idx = rfind(chr(125)) + 1` (only used after the guard, where both
indices are non-negative). -/
def extractJsonStr (s : String) : String :=
  String.mk ((s.data.take (pyRfind s '\x7d' + 1).toNat).drop (pyFind s '\x7b').toNat)

/-- `_create_fallback_recipe`, with the generated `uuid4` and
`utcnow().isoformat()` passed in as `freshId` / `createdAt`. -/
def _create_fallback_recipe (freshId createdAt response_text : String) : RecipeDict :=
  [("id", JValue.jstr freshId),
   ("title", JValue.jstr "AI Generated Recipe"),
   ("description", JValue.jstr "Recipe generated by AI"),
   ("prep_time", JValue.jstr "20 minutes"),
   ("cook_time", JValue.jstr "30 minutes"),
   ("total_time", JValue.jstr "50 minutes"),
   ("servings", JValue.jnum 4),
   ("difficulty", JValue.jstr "medium"),
   ("cuisine", JValue.jstr "various"),
   ("ingredients", JValue.jarr []),
   ("instructions", JValue.jarr [JValue.jstr response_text]),
   ("nutrition", JValue.jobj []),
   ("tags", JValue.jarr [JValue.jstr "ai-generated"]),
   ("tips", JValue.jarr []),
   ("created_at", JValue.jstr createdAt),
   ("source", JValue.jstr "ai_generated")]

/-- `_parse_recipe_response`.  The missing-brace `ValueError` is *not* a
`json.JSONDecodeError`, so it skips that handler and is re-raised by
`except Exception: raise` — hence `Except.error`, not the fallback.
A decode failure of the slice is a `JSONDecodeError` and yields the
fallback.  `recipe[k] = v` item assignment on a non-dict would raise
`TypeError` (also re-raised); that branch is unreachable because the
slice starts with an opening brace. -/
def _parse_recipe_response (freshId createdAt response_text : String) : Except String RecipeDict :=
  let start_idx : Int := pyFind response_text '\x7b'
  let end_idx : Int := pyRfind response_text '\x7d' + 1
  if start_idx = -1 ∨ end_idx = 0 then
    Except.error "No JSON found in response"
  else
    match loads (extractJsonStr response_text) with
    | Except.error _ => Except.ok (_create_fallback_recipe freshId createdAt response_text)
    | Except.ok (JValue.jobj recipe) =>
      Except.ok (setKey (setKey (setKey recipe "id" (JValue.jstr freshId))
        "created_at" (JValue.jstr createdAt)) "source" (JValue.jstr "ai_generated"))
    | Except.ok _ => Except.error "TypeError"

/-- Python `", ".join`, by recursion on the list. -/
def joinSep (sep : String) : List String → String
  | [] => ""
  | [s] => s
  | s :: rest => s ++ sep ++ joinSep sep rest

/-- The fixed instructional footer appended by `_build_prompt` (the
closing triple-quoted literal, verbatim: it begins and ends with a
newline). -/
def promptFooter : String :=
  "\nPlease provide the recipe in the following JSON format:\n\x7b\n    \"title\": \"Recipe Name\",\n    \"description\": \"Brief description of the dish\",\n    \"prep_time\": \"15 minutes\",\n    \"cook_time\": \"30 minutes\",\n    \"total_time\": \"45 minutes\",\n    \"servings\": 4,\n    \"difficulty\": \"medium\",\n    \"cuisine\": \"cuisine type\",\n    \"ingredients\": [\n        \x7b\n            \"item\": \"ingredient name\",\n            \"amount\": \"1 cup\",\n            \"notes\": \"optional preparation notes\"\n        \x7d\n    ],\n    \"instructions\": [\n        \"Step 1: Detailed instruction\",\n        \"Step 2: Another detailed instruction\"\n    ],\n    \"nutrition\": \x7b\n        \"calories\": 350,\n        \"protein\": \"25g\",\n        \"carbs\": \"30g\",\n        \"fat\": \"15g\"\n    \x7d,\n    \"tags\": [\"tag1\", \"tag2\", \"tag3\"],\n    \"tips\": [\"Cooking tip 1\", \"Cooking tip 2\"]\n\x7d\n\nPlease ensure all ingredients from the input list are used in the recipe where possible.\n"

/-- `_build_prompt`.  `dietary_restrictions=None` and `[]` behave the
same under Python truthiness, so the embedding takes a list; an absent
or empty-string `cuisine_type` / `meal_type` is likewise skipped, as
`if cuisine_type:` does. -/
def _build_prompt (ingredients dietary_restrictions : List String)
    (cuisine_type meal_type : Option String) (difficulty : String) : String :=
  let ingredients_str := joinSep ", " ingredients
  let p1 := "Generate a detailed recipe using the following ingredients: " ++ ingredients_str
    ++ "\n\nRequirements:\n- Difficulty level: " ++ difficulty ++ "\n"
  let p2 := if dietary_restrictions.isEmpty then p1
    else p1 ++ "- Dietary restrictions: " ++ joinSep ", " dietary_restrictions ++ "\n"
  let p3 := match cuisine_type with
    | none => p2
    | some c => if c.isEmpty then p2 else p2 ++ "- Cuisine type: " ++ c ++ "\n"
  let p4 := match meal_type with
    | none => p3
    | some m => if m.isEmpty then p3 else p3 ++ "- Meal type: " ++ m ++ "\n"
  p4 ++ promptFooter

/-- Python truthiness of a JSON-decoded value (`if ingredients:` etc.).
For a float lexeme, falsy means every mantissa digit is `0`. -/
def pyTruthy : JValue → Bool
  | JValue.jnull => false
  | JValue.jbool b => b
  | JValue.jnum n => n != 0
  | JValue.jnumf lex =>
    (lex.takeWhile (fun c => c ≠ 'e' ∧ c ≠ 'E')).any (fun c => c.isDigit && c != '0')
  | JValue.jstr s => !s.isEmpty
  | JValue.jarr xs => !xs.isEmpty
  | JValue.jobj ms => !ms.isEmpty

def hexDigit (n : Nat) : Char :=
  if n < 10 then Char.ofNat ('0'.toNat + n) else Char.ofNat ('a'.toNat + n - 10)

def uEsc (n : Nat) : String :=
  String.mk ['\\', 'u', hexDigit (n / 4096 % 16), hexDigit (n / 256 % 16),
    hexDigit (n / 16 % 16), hexDigit (n % 16)]

/-- One character under `json.dumps` default (`ensure_ascii=True`)
escaping. -/
def jsonEscapeChar (c : Char) : String :=
  if c = '"' then "\\\""
  else if c = '\\' then "\\\\"
  else if c = '\n' then "\\n"
  else if c = '\t' then "\\t"
  else if c = '\r' then "\\r"
  else if c = '\x08' then "\\b"
  else if c = '\x0c' then "\\f"
  else if c.toNat < 32 ∨ c.toNat > 126 then
    if c.toNat ≥ 65536 then
      uEsc (55296 + (c.toNat - 65536) / 1024) ++ uEsc (56320 + (c.toNat - 65536) % 1024)
    else uEsc c.toNat
  else String.singleton c

def jsonEscape (s : String) : String :=
  "\"" ++ String.join (s.data.map jsonEscapeChar) ++ "\""

mutual

/-- `json.dumps` with its default separators `", "` / `": "`. -/
def pyDumps : JValue → String
  | JValue.jnull => "null"
  | JValue.jbool true => "true"
  | JValue.jbool false => "false"
  | JValue.jnum n => toString n
  | JValue.jnumf lex => String.mk lex
  | JValue.jstr s => jsonEscape s
  | JValue.jarr xs => "[" ++ pyDumpsItems xs ++ "]"
  | JValue.jobj ms => "\x7b" ++ pyDumpsMembers ms ++ "\x7d"

def pyDumpsItems : List JValue → String
  | [] => ""
  | [x] => pyDumps x
  | x :: xs => pyDumps x ++ ", " ++ pyDumpsItems xs

def pyDumpsMembers : List (String × JValue) → String
  | [] => ""
  | [(k, v)] => jsonEscape k ++ ": " ++ pyDumps v
  | (k, v) :: ms => jsonEscape k ++ ": " ++ pyDumps v ++ ", " ++ pyDumpsMembers ms

end

mutual

/-- Python `repr` of a JSON-decoded value, used by f-string rendering of
containers; quote escaping inside `repr` of a string is elided (no claim
inspects a rendered prompt built from non-string fields). -/
def pyRepr : JValue → String
  | JValue.jnull => "None"
  | JValue.jbool true => "True"
  | JValue.jbool false => "False"
  | JValue.jnum n => toString n
  | JValue.jnumf lex => String.mk lex
  | JValue.jstr s => "\x27" ++ s ++ "\x27"
  | JValue.jarr xs => "[" ++ pyReprItems xs ++ "]"
  | JValue.jobj ms => "\x7b" ++ pyReprMembers ms ++ "\x7d"

def pyReprItems : List JValue → String
  | [] => ""
  | [x] => pyRepr x
  | x :: xs => pyRepr x ++ ", " ++ pyReprItems xs

def pyReprMembers : List (String × JValue) → String
  | [] => ""
  | [(k, v)] => "\x27" ++ k ++ "\x27: " ++ pyRepr v
  | (k, v) :: ms => "\x27" ++ k ++ "\x27: " ++ pyRepr v ++ ", " ++ pyReprMembers ms

end

/-- Python `str()` as an f-string renders it: identity on strings,
`repr` otherwise. -/
def fstr : JValue → String
  | JValue.jstr s => s
  | v => pyRepr v

/-- How `body.get(k)` feeds an optional prompt argument: `None` when the
key is absent, skipped by the builder when falsy, otherwise rendered by
the f-string. -/
def optArg (v : JValue) : Option String :=
  match v with
  | JValue.jnull => none
  | w => if pyTruthy w then some (fstr w) else none

/-- What `", ".join(x)` accepts: a list of strings, a string (an
iterable of its characters), or a dict (an iterable of its string
keys); anything else raises `TypeError`. -/
def toJoinList : JValue → Option (List String)
  | JValue.jarr xs => xs.mapM (fun x => match x with | JValue.jstr s => some s | _ => none)
  | JValue.jstr s => some (s.data.map (fun c => String.singleton c))
  | JValue.jobj ms => some (ms.map Prod.fst)
  | _ => none

structure HttpResponse where
  statusCode : Nat
  headers : List (String × String)
  body : String

/-- The handler's observable outcome: the HTTP response plus which
external collaborators were invoked (the Bedrock inference call and the
DynamoDB `put_item`). -/
structure HandlerOutput where
  resp : HttpResponse
  calledInference : Bool
  calledDb : Bool

/-- The one header map used by every response of the handler. -/
def stdHeaders : List (String × String) :=
  [("Content-Type", "application/json"),
   ("Access-Control-Allow-Origin", "*"),
   ("Access-Control-Allow-Headers", "Content-Type,Authorization"),
   ("Access-Control-Allow-Methods", "POST,OPTIONS")]

/-- The validation-error response for a missing or empty ingredients
list. -/
def resp400 : HttpResponse :=
  ⟨400, stdHeaders, pyDumps (JValue.jobj [("error", JValue.jstr "Ingredients list is required")])⟩

/-- The generic response of the outer `except Exception` handler. -/
def resp500 : HttpResponse :=
  ⟨500, stdHeaders, pyDumps (JValue.jobj [("error", JValue.jstr "Internal server error")])⟩

/-- `lambda_handler`.  `eventBody` is `event.get(str_body, chr(123) ++
chr(125))`; `inference` stands for the Bedrock call (the generated text,
or a raised client error); `dbOk` stands for the `put_item` outcome and
is deliberately unused by the result — the `except` around `put_item`
swallows the failure.  Any exception on the way (undecodable body,
`.get` on a non-dict, `TypeError` from joining non-strings, an inference
failure, or the normalizer's `ValueError`) lands in the outer handler
and yields the fixed 500 response. -/
def lambda_handler (eventBody : Option String) (inference : Except String String)
    (_dbOk : Bool) (freshId createdAt : String) : HandlerOutput :=
  match loads (eventBody.getD "\x7b\x7d") with
  | Except.error _ => ⟨resp500, false, false⟩
  | Except.ok bodyVal =>
    match bodyVal with
    | JValue.jobj body =>
      let ingredients := dictGetD body "ingredients" (JValue.jarr [])
      let dietary_restrictions := dictGetD body "dietary_restrictions" (JValue.jarr [])
      let cuisine_type := dictGetD body "cuisine_type" JValue.jnull
      let meal_type := dictGetD body "meal_type" JValue.jnull
      let difficulty := dictGetD body "difficulty" (JValue.jstr "medium")
      let save_to_db := dictGetD body "save_to_db" (JValue.jbool true)
      if pyTruthy ingredients = false then ⟨resp400, false, false⟩
      else
        match toJoinList ingredients with
        | none => ⟨resp500, false, false⟩
        | some ingList =>
          match (if pyTruthy dietary_restrictions then toJoinList dietary_restrictions
                 else some []) with
          | none => ⟨resp500, false, false⟩
          | some dietList =>
            let _prompt := _build_prompt ingList dietList (optArg cuisine_type)
              (optArg meal_type) (fstr difficulty)
            match inference with
            | Except.error _ => ⟨resp500, true, false⟩
            | Except.ok generated_text =>
              match _parse_recipe_response freshId createdAt generated_text with
              | Except.error _ => ⟨resp500, true, false⟩
              | Except.ok recipe =>
                if pyTruthy save_to_db then
                  ⟨⟨200, stdHeaders, pyDumps (JValue.jobj recipe)⟩, true, true⟩
                else
                  ⟨⟨200, stdHeaders, pyDumps (JValue.jobj recipe)⟩, true, false⟩
    | _ => ⟨resp500, false, false⟩

/-- Modelled from the spec's words: "the selected slice spans from the
first opening brace to the last closing brace in the entire text" —
drop everything before the first opening brace, then (via the reversal)
everything after the last closing brace, keeping both braces. -/
def sliceFirstToLast (l : List Char) : List Char :=
  ((l.dropWhile (fun x => x ≠ '\x7b')).reverse.dropWhile (fun x => x ≠ '\x7d')).reverse

/-- The value carried by an optional request field (empty if absent). -/
def optVal : Option String → String
  | none => ""
  | some c => c

/-- Python truthiness of an optional string field (`if cuisine_type:`). -/
def optTruthy : Option String → Bool
  | none => false
  | some c => !c.isEmpty

def isPrefOf : List Char → List Char → Bool
  | [], _ => true
  | _ :: _, [] => false
  | x :: xs, y :: ys => x == y && isPrefOf xs ys

def isSubB (m : List Char) : List Char → Bool
  | [] => m.isEmpty
  | x :: t => isPrefOf m (x :: t) || isSubB m t

/-- `sub` occurs as a contiguous substring of `s`. -/
def containsSubB (s sub : String) : Bool := isSubB sub.data s.data

/-- Split a character list at newlines (like Python `str.splitlines`
restricted to `chr 10`, keeping a trailing empty line). -/
def splitNl : List Char → List (List Char)
  | [] => [[]]
  | c :: cs =>
    if c = '\n' then [] :: splitNl cs
    else
      match splitNl cs with
      | [] => [[c]]
      | h :: t => (c :: h) :: t

/-- One of the lines of `s` starts with `marker`. -/
def hasLineB (s marker : String) : Bool :=
  (splitNl s.data).any (fun l => isPrefOf marker.data l)

theorem dictGet_setKey_same (d : RecipeDict) (k : String) (v : JValue) :
    dictGet (setKey d k v) k = some v := by
  induction d with
  | nil => simp [setKey, dictGet]
  | cons h t ih =>
    obtain ⟨k', v'⟩ := h
    by_cases hk : k' = k
    · simp [setKey, hk, dictGet]
    · simp [setKey, hk, dictGet, ih]

theorem dictGet_setKey_other (d : RecipeDict) (k k2 : String) (v : JValue) (h : k2 ≠ k) :
    dictGet (setKey d k v) k2 = dictGet d k2 := by
  induction d with
  | nil => simp [setKey, dictGet, Ne.symm h]
  | cons hd t ih =>
    obtain ⟨k', v'⟩ := hd
    by_cases hk : k' = k
    · subst hk
      simp [setKey, dictGet, Ne.symm h]
    · simp only [setKey, hk, if_false, dictGet]
      by_cases hk2 : k' = k2 <;> simp [hk2, ih]

theorem findIdxOpt_eq_none_iff (c : Char) (l : List Char) :
    findIdxOpt c l = none ↔ c ∉ l := by
  induction l with
  | nil => simp [findIdxOpt]
  | cons x t ih =>
    by_cases hx : x = c
    · subst hx; simp [findIdxOpt]
    · simp [findIdxOpt, hx, ih, Option.map_eq_none', Ne.symm hx]

theorem findIdxOpt_isSome_of_mem (c : Char) (l : List Char) (h : c ∈ l) :
    ∃ i, findIdxOpt c l = some i := by
  rcases hf : findIdxOpt c l with _ | i
  · exact absurd ((findIdxOpt_eq_none_iff c l).mp hf) (by simp [h])
  · exact ⟨i, rfl⟩

theorem findIdxOpt_get (c : Char) (l : List Char) (i : Nat) (h : findIdxOpt c l = some i) :
    i < l.length ∧ l.get? i = some c := by
  induction l generalizing i with
  | nil => simp [findIdxOpt] at h
  | cons x t ih =>
    by_cases hx : x = c
    · subst hx
      simp [findIdxOpt] at h
      subst h
      simp
    · simp only [findIdxOpt, hx, if_false] at h
      rcases hf : findIdxOpt c t with _ | j
      · rw [hf] at h; simp at h
      · rw [hf] at h
        simp at h
        subst h
        rcases ih j hf with ⟨h1, h2⟩
        exact ⟨by simpa using Nat.succ_lt_succ h1, by simpa using h2⟩

theorem dropWhile_ne_findIdxOpt (c : Char) (l : List Char) :
    l.dropWhile (fun x => x ≠ c) =
      (match findIdxOpt c l with
       | some i => l.drop i
       | none => []) := by
  induction l with
  | nil => simp [findIdxOpt]
  | cons x t ih =>
    by_cases hx : x = c
    · subst hx; simp [List.dropWhile_cons, findIdxOpt]
    · rw [List.dropWhile_cons]
      simp only [findIdxOpt, hx, if_false]
      rcases hf : findIdxOpt c t with _ | j
      · rw [hf] at ih; simpa [hx] using ih
      · rw [hf] at ih; simpa [hx] using ih

theorem findIdxOpt_take_lt (c : Char) (l : List Char) (j m : Nat)
    (h : findIdxOpt c l = some j) (hm : j < m) :
    findIdxOpt c (l.take m) = some j := by
  induction l generalizing j m with
  | nil => simp [findIdxOpt] at h
  | cons x t ih =>
    rcases m with _ | m'
    · omega
    · by_cases hx : x = c
      · subst hx
        simp [findIdxOpt] at h ⊢
        omega
      · simp only [findIdxOpt, hx, if_false] at h
        rcases hf : findIdxOpt c t with _ | j'
        · rw [hf] at h; simp at h
        · rw [hf] at h
          simp at h
          subst h
          simp only [List.take_succ_cons, findIdxOpt, hx, if_false]
          rw [ih j' m' hf (by omega)]
          rfl

theorem findIdxOpt_take_ge (c : Char) (l : List Char) (j m : Nat)
    (h : findIdxOpt c l = some j) (hm : m ≤ j) :
    findIdxOpt c (l.take m) = none := by
  induction l generalizing j m with
  | nil => simp [findIdxOpt] at h
  | cons x t ih =>
    rcases m with _ | m'
    · simp [findIdxOpt]
    · by_cases hx : x = c
      · subst hx
        simp [findIdxOpt] at h
        omega
      · simp only [findIdxOpt, hx, if_false] at h
        rcases hf : findIdxOpt c t with _ | j'
        · rw [hf] at h; simp at h
        · rw [hf] at h
          simp at h
          subst h
          simp only [List.take_succ_cons, findIdxOpt, hx, if_false]
          rw [ih j' m' hf (by omega)]
          rfl

/-- Any successful parse in object-members mode yields a dict. -/
theorem parseRun_pmembers_jobj (f : Nat) :
    ∀ (first : Bool) (acc : RecipeDict) (cs : List Char) (v : JValue) (rest : List Char),
      parseRun f (PMode.pmembers first acc) cs = Except.ok (v, rest) →
        ∃ ms, v = JValue.jobj ms := by
  induction f with
  | zero => intro first acc cs v rest h; simp [parseRun] at h
  | succ f ih =>
    intro first acc cs v rest h
    simp only [parseRun] at h
    split at h
    · simp at h
    · split at h
      · simp only [Except.ok.injEq, Prod.mk.injEq] at h
        exact ⟨[], h.1.symm⟩
      · split at h
        · split at h
          · simp at h
          · split at h
            · split at h
              · simp at h
              · split at h
                · exact ih _ _ _ _ _ h
                · simp only [Except.ok.injEq, Prod.mk.injEq] at h
                  exact ⟨_, h.1.symm⟩
                · simp at h
            · simp at h
        · simp at h

theorem parseRun_pval_brace (f : Nat) (rest : List Char) :
    parseRun (Nat.succ f) PMode.pval ('\x7b' :: rest) =
      parseRun f (PMode.pmembers true []) rest := by
  simp [parseRun]

/-- A successfully decoded input whose first character is an opening
brace is a dict (in Python: `json.loads` of such a slice is a `dict`,
so `recipe[k] = v` assignment cannot raise `TypeError`). -/
theorem loads_ok_jobj_of_brace (s : String) (t : List Char) (hs : s.data = '\x7b' :: t)
    (v : JValue) (h : loads s = Except.ok v) : ∃ ms, v = JValue.jobj ms := by
  unfold loads at h
  rw [hs] at h
  have hw : skipWs ('\x7b' :: t) = '\x7b' :: t := rfl
  rw [hw] at h
  rw [show ('\x7b' :: t).length + 1 = Nat.succ (t.length + 1) from rfl] at h
  rw [parseRun_pval_brace] at h
  rcases hp : parseRun (t.length + 1) (PMode.pmembers true []) t with e | ⟨v', rest⟩
  · rw [hp] at h; simp at h
  · rw [hp] at h
    dsimp only at h
    by_cases he : (skipWs rest).isEmpty = true
    · rw [if_pos he] at h
      injection h with hv
      subst hv
      exact parseRun_pmembers_jobj _ _ _ _ _ _ hp
    · rw [if_neg he] at h
      simp at h

theorem reverse_drop_reverse (x : List Char) (n : Nat) :
    (x.reverse.drop n).reverse = x.take (x.length - n) := by
  rw [List.reverse_drop]
  simp

theorem extractJsonStr_eq_sliceFirstToLast (raw : String)
    (h1 : '\x7b' ∈ raw.data) (h2 : '\x7d' ∈ raw.data) :
    (extractJsonStr raw).data = sliceFirstToLast raw.data := by
  obtain ⟨i, hi⟩ := findIdxOpt_isSome_of_mem '\x7b' raw.data h1
  obtain ⟨j, hj⟩ := findIdxOpt_isSome_of_mem '\x7d' raw.data.reverse (by simpa using h2)
  have hilen : i < raw.data.length := (findIdxOpt_get _ _ _ hi).1
  have hjlen : j < raw.data.length := by
    have := (findIdxOpt_get _ _ _ hj).1
    simpa using this
  have hFind : pyFind raw '\x7b' = (i : Int) := by simp [pyFind, hi]
  have hRfind : pyRfind raw '\x7d' = ((raw.data.length - 1 - j : Nat) : Int) := by
    simp [pyRfind, hj]
  have hext : (extractJsonStr raw).data =
      (raw.data.take (raw.data.length - 1 - j + 1)).drop i := by
    simp only [extractJsonStr, hFind, hRfind]
    norm_cast
  rw [hext]
  have hA : raw.data.dropWhile (fun x => x ≠ '\x7b') = raw.data.drop i := by
    have h := dropWhile_ne_findIdxOpt '\x7b' raw.data
    rw [hi] at h
    simpa using h
  unfold sliceFirstToLast
  rw [hA]
  have hrev : (raw.data.drop i).reverse = raw.data.reverse.take (raw.data.length - i) :=
    List.reverse_drop
  by_cases hcase : j < raw.data.length - i
  · have hfj : findIdxOpt '\x7d' ((raw.data.drop i).reverse) = some j := by
      rw [hrev]
      exact findIdxOpt_take_lt _ _ _ _ hj hcase
    have hB := dropWhile_ne_findIdxOpt '\x7d' ((raw.data.drop i).reverse)
    rw [hfj] at hB
    rw [hB]
    rw [reverse_drop_reverse]
    rw [List.drop_take]
    congr 1
    simp only [List.length_drop]
    omega
  · have hfj : findIdxOpt '\x7d' ((raw.data.drop i).reverse) = none := by
      rw [hrev]
      exact findIdxOpt_take_ge _ _ _ _ hj (by omega)
    have hB := dropWhile_ne_findIdxOpt '\x7d' ((raw.data.drop i).reverse)
    rw [hfj] at hB
    rw [hB]
    simp only [List.reverse_nil]
    rw [List.drop_eq_nil_iff]
    rw [List.length_take]
    omega

theorem extractJsonStr_data (raw : String) (i j : Nat)
    (hi : findIdxOpt '\x7b' raw.data = some i)
    (hj : findIdxOpt '\x7d' raw.data.reverse = some j) :
    (extractJsonStr raw).data =
      (raw.data.take (raw.data.length - 1 - j + 1)).drop i := by
  have hFind : pyFind raw '\x7b' = (i : Int) := by simp [pyFind, hi]
  have hRfind : pyRfind raw '\x7d' = ((raw.data.length - 1 - j : Nat) : Int) := by
    simp [pyRfind, hj]
  simp only [extractJsonStr, hFind, hRfind]
  norm_cast

/-- The extracted slice is empty (when the last closing brace comes
before the first opening brace) or starts with the opening brace. -/
theorem extract_empty_or_brace (raw : String)
    (h1 : '\x7b' ∈ raw.data) (h2 : '\x7d' ∈ raw.data) :
    (extractJsonStr raw).data = [] ∨ ∃ t, (extractJsonStr raw).data = '\x7b' :: t := by
  obtain ⟨i, hi⟩ := findIdxOpt_isSome_of_mem '\x7b' raw.data h1
  obtain ⟨j, hj⟩ := findIdxOpt_isSome_of_mem '\x7d' raw.data.reverse (by simpa using h2)
  have hd := extractJsonStr_data raw i j hi hj
  have hic : raw.data.get? i = some '\x7b' := (findIdxOpt_get _ _ _ hi).2
  by_cases hio : i < raw.data.length - 1 - j + 1
  · right
    have hlen : i < (raw.data.take (raw.data.length - 1 - j + 1)).length := by
      rw [List.length_take]
      have := (findIdxOpt_get _ _ _ hi).1
      omega
    refine ⟨(raw.data.take (raw.data.length - 1 - j + 1)).drop (i + 1), ?_⟩
    rw [hd, List.drop_eq_getElem_cons hlen]
    have e1 : (raw.data.take (raw.data.length - 1 - j + 1))[i]? = some '\x7b' := by
      rw [List.getElem?_take_of_lt hio, ← List.get?_eq_getElem?]
      exact hic
    have e2 : (raw.data.take (raw.data.length - 1 - j + 1))[i] = '\x7b' := by
      have e3 := List.getElem?_eq_getElem hlen
      rw [e3] at e1
      exact Option.some.inj e1
    rw [e2]
  · left
    rw [hd, List.drop_eq_nil_iff, List.length_take]
    omega

theorem pyFind_eq_neg_one_iff (raw : String) (c : Char) :
    pyFind raw c = -1 ↔ c ∉ raw.data := by
  unfold pyFind
  rcases hf : findIdxOpt c raw.data with _ | i <;> dsimp only
  · simpa using (findIdxOpt_eq_none_iff c raw.data).mp hf
  · constructor
    · intro h; exfalso; omega
    · intro h
      have hn := (findIdxOpt_eq_none_iff c raw.data).mpr h
      rw [hf] at hn
      exact Option.noConfusion hn

theorem pyRfind_eq_neg_one_iff (raw : String) (c : Char) :
    pyRfind raw c = -1 ↔ c ∉ raw.data := by
  unfold pyRfind
  rcases hf : findIdxOpt c raw.data.reverse with _ | j <;> dsimp only
  · simpa [List.mem_reverse] using (findIdxOpt_eq_none_iff c raw.data.reverse).mp hf
  · constructor
    · intro h; exfalso; omega
    · intro h
      have hn := (findIdxOpt_eq_none_iff c raw.data.reverse).mpr (by simpa using h)
      rw [hf] at hn
      exact Option.noConfusion hn

theorem guard_false_of_braces (raw : String)
    (h1 : '\x7b' ∈ raw.data) (h2 : '\x7d' ∈ raw.data) :
    ¬(pyFind raw '\x7b' = -1 ∨ pyRfind raw '\x7d' + 1 = 0) := by
  rintro (h | h)
  · exact ((pyFind_eq_neg_one_iff raw '\x7b').mp h) h1
  · have hm : pyRfind raw '\x7d' = -1 := by omega
    exact ((pyRfind_eq_neg_one_iff raw '\x7d').mp hm) h2

theorem guard_true_of_not_braces (raw : String)
    (h : ¬('\x7b' ∈ raw.data ∧ '\x7d' ∈ raw.data)) :
    pyFind raw '\x7b' = -1 ∨ pyRfind raw '\x7d' + 1 = 0 := by
  by_cases h1 : '\x7b' ∈ raw.data
  · right
    have h2 : '\x7d' ∉ raw.data := fun hh => h ⟨h1, hh⟩
    have hm := (pyRfind_eq_neg_one_iff raw '\x7d').mpr h2
    omega
  · left
    exact (pyFind_eq_neg_one_iff raw '\x7b').mpr h1

theorem loads_empty_of_data_nil (s : String) (h : s.data = []) :
    loads s = Except.error "Expecting value" := by
  unfold loads
  rw [h]
  rfl

/-- Unfolding helper: the branch structure of `_parse_recipe_response`. -/
theorem parse_recipe_response_eq (freshId createdAt raw : String) :
    _parse_recipe_response freshId createdAt raw =
      if pyFind raw '\x7b' = -1 ∨ pyRfind raw '\x7d' + 1 = 0 then
        Except.error "No JSON found in response"
      else
        match loads (extractJsonStr raw) with
        | Except.error _ => Except.ok (_create_fallback_recipe freshId createdAt raw)
        | Except.ok (JValue.jobj recipe) =>
          Except.ok (setKey (setKey (setKey recipe "id" (JValue.jstr freshId))
            "created_at" (JValue.jstr createdAt)) "source" (JValue.jstr "ai_generated"))
        | Except.ok _ => Except.error "TypeError" := rfl

/-- C1 (corrected).  The claim said the parsing step is total and sends
brace-free inputs to the fallback recipe.  In the code the
`raise ValueError` for a missing brace is not caught by
`except json.JSONDecodeError` (a `ValueError` is not a
`JSONDecodeError`), so such inputs raise instead of falling back; the
counterexample exhibits this on the empty string.  Amended: the parsing
step returns a Recipe exactly when the input contains both an opening
and a closing brace, and then the Recipe has the non-empty freshly
generated `id` and `created_at`; when either brace is missing it raises
`ValueError` (which the handler's outer `except` turns into a 500). -/
theorem normalize_total_iff_braces (freshId createdAt raw : String)
    (hid : freshId ≠ "") (hts : createdAt ≠ "") :
    (('\x7b' ∈ raw.data ∧ '\x7d' ∈ raw.data) →
      ∃ r, _parse_recipe_response freshId createdAt raw = Except.ok r ∧
        (∃ s, dictGet r "id" = some (JValue.jstr s) ∧ s ≠ "") ∧
        (∃ t, dictGet r "created_at" = some (JValue.jstr t) ∧ t ≠ "")) ∧
    (¬('\x7b' ∈ raw.data ∧ '\x7d' ∈ raw.data) →
      _parse_recipe_response freshId createdAt raw =
        Except.error "No JSON found in response") := by
  constructor
  · rintro ⟨hb1, hb2⟩
    rw [parse_recipe_response_eq]
    rw [if_neg (guard_false_of_braces raw hb1 hb2)]
    rcases hl : loads (extractJsonStr raw) with e | v
    · exact ⟨_, rfl, ⟨freshId, rfl, hid⟩, ⟨createdAt, rfl, hts⟩⟩
    · rcases extract_empty_or_brace raw hb1 hb2 with hemp | ⟨t, ht⟩
      · exfalso
        have hx := loads_empty_of_data_nil _ hemp
        rw [hl] at hx
        exact Except.noConfusion hx
      · obtain ⟨ms, hv⟩ := loads_ok_jobj_of_brace _ _ ht _ hl
        subst hv
        dsimp only
        refine ⟨_, rfl, ⟨freshId, ?_, hid⟩, ⟨createdAt, ?_, hts⟩⟩
        · rw [dictGet_setKey_other _ _ _ _ (by decide : ("id" : String) ≠ "source"),
            dictGet_setKey_other _ _ _ _ (by decide : ("id" : String) ≠ "created_at"),
            dictGet_setKey_same]
        · rw [dictGet_setKey_other _ _ _ _ (by decide : ("created_at" : String) ≠ "source"),
            dictGet_setKey_same]
  · intro hnb
    rw [parse_recipe_response_eq]
    rw [if_pos (guard_true_of_not_braces raw hnb)]

/-- C1 witness: on an input that does contain both braces the amended
theorem applies and produces a Recipe with the generated metadata. -/

theorem normalize_total_iff_braces_witness :
    ∃ r, _parse_recipe_response "uuid-1" "2024-01-01T00:00:00" "\x7b\x7d" = Except.ok r ∧
      (∃ s, dictGet r "id" = some (JValue.jstr s) ∧ s ≠ "") ∧
      (∃ t, dictGet r "created_at" = some (JValue.jstr t) ∧ t ≠ "") :=
  (normalize_total_iff_braces "uuid-1" "2024-01-01T00:00:00" "\x7b\x7d"
    (by decide) (by decide)).1 (by decide)

/-- C1 counterexample: on the empty string (which the claim explicitly
covers) the parsing step raises instead of returning a fallback
Recipe. -/
theorem normalize_not_total_on_empty_input :
    _parse_recipe_response "uuid-2" "2024-01-02T00:00:00" "" =
      Except.error "No JSON found in response" ∧
    _parse_recipe_response "uuid-2" "2024-01-02T00:00:00" "" ≠
      Except.ok (_create_fallback_recipe "uuid-2" "2024-01-02T00:00:00" "") := by
  refine ⟨rfl, fun h => ?_⟩
  rw [show _parse_recipe_response "uuid-2" "2024-01-02T00:00:00" "" =
    Except.error "No JSON found in response" from rfl] at h
  exact Except.noConfusion h

/-- C2 (corrected).  The claim's concrete input `"not json at all"`
contains no brace, so the parsing step raises (`ValueError`, uncaught)
rather than building the fallback — see the counterexample.  Amended:
for every input that actually reaches fallback construction (both
braces present but the extracted slice fails JSON decoding, e.g. the
input `"\x7bnot json at all\x7d"`), the result is exactly the fixed
fallback shape: tags `["ai-generated"]`, instructions the single raw
text, empty ingredients, servings 4, difficulty "medium", cuisine
"various", empty nutrition and tips, the fixed placeholder title,
description and time fields, the generated `id`/`created_at` and the
`source` literal. -/
theorem fallback_shape_on_decode_failure (freshId createdAt raw e : String)
    (hb1 : '\x7b' ∈ raw.data) (hb2 : '\x7d' ∈ raw.data)
    (hl : loads (extractJsonStr raw) = Except.error e) :
    _parse_recipe_response freshId createdAt raw =
      Except.ok (_create_fallback_recipe freshId createdAt raw) ∧
    dictGet (_create_fallback_recipe freshId createdAt raw) "tags" =
      some (JValue.jarr [JValue.jstr "ai-generated"]) ∧
    dictGet (_create_fallback_recipe freshId createdAt raw) "instructions" =
      some (JValue.jarr [JValue.jstr raw]) ∧
    dictGet (_create_fallback_recipe freshId createdAt raw) "ingredients" =
      some (JValue.jarr []) ∧
    dictGet (_create_fallback_recipe freshId createdAt raw) "servings" =
      some (JValue.jnum 4) ∧
    dictGet (_create_fallback_recipe freshId createdAt raw) "difficulty" =
      some (JValue.jstr "medium") ∧
    dictGet (_create_fallback_recipe freshId createdAt raw) "cuisine" =
      some (JValue.jstr "various") ∧
    dictGet (_create_fallback_recipe freshId createdAt raw) "nutrition" =
      some (JValue.jobj []) ∧
    dictGet (_create_fallback_recipe freshId createdAt raw) "tips" =
      some (JValue.jarr []) ∧
    dictGet (_create_fallback_recipe freshId createdAt raw) "title" =
      some (JValue.jstr "AI Generated Recipe") ∧
    dictGet (_create_fallback_recipe freshId createdAt raw) "description" =
      some (JValue.jstr "Recipe generated by AI") ∧
    dictGet (_create_fallback_recipe freshId createdAt raw) "prep_time" =
      some (JValue.jstr "20 minutes") ∧
    dictGet (_create_fallback_recipe freshId createdAt raw) "cook_time" =
      some (JValue.jstr "30 minutes") ∧
    dictGet (_create_fallback_recipe freshId createdAt raw) "total_time" =
      some (JValue.jstr "50 minutes") ∧
    dictGet (_create_fallback_recipe freshId createdAt raw) "id" =
      some (JValue.jstr freshId) ∧
    dictGet (_create_fallback_recipe freshId createdAt raw) "created_at" =
      some (JValue.jstr createdAt) ∧
    dictGet (_create_fallback_recipe freshId createdAt raw) "source" =
      some (JValue.jstr "ai_generated") := by
  refine ⟨?_, rfl, rfl, rfl, rfl, rfl, rfl, rfl, rfl, rfl, rfl, rfl, rfl, rfl, rfl, rfl, rfl⟩
  rw [parse_recipe_response_eq, if_neg (guard_false_of_braces raw hb1 hb2), hl]

/-- C2 witness: a brace-wrapped non-JSON input does reach the fallback
and produces it verbatim. -/
theorem fallback_shape_on_decode_failure_witness :
    _parse_recipe_response "uuid-3" "2024-01-03T00:00:00" "\x7bnot json at all\x7d" =
      Except.ok (_create_fallback_recipe "uuid-3" "2024-01-03T00:00:00"
        "\x7bnot json at all\x7d") :=
  (fallback_shape_on_decode_failure "uuid-3" "2024-01-03T00:00:00" "\x7bnot json at all\x7d"
    "Expecting property name enclosed in double quotes" (by decide) (by decide) rfl).1

/-- C2 counterexample: on the claim's own input `"not json at all"`
(no braces) the parsing step raises instead of returning the fallback
Recipe. -/
theorem fallback_not_reached_without_braces :
    _parse_recipe_response "uuid-4" "2024-01-04T00:00:00" "not json at all" =
      Except.error "No JSON found in response" ∧
    _parse_recipe_response "uuid-4" "2024-01-04T00:00:00" "not json at all" ≠
      Except.ok (_create_fallback_recipe "uuid-4" "2024-01-04T00:00:00" "not json at all") := by
  refine ⟨rfl, fun h => ?_⟩
  rw [show _parse_recipe_response "uuid-4" "2024-01-04T00:00:00" "not json at all" =
    Except.error "No JSON found in response" from rfl] at h
  exact Except.noConfusion h

/-- C3 (confirmed): when the extracted slice decodes to a JSON object,
the parsed fields become the Recipe's field set and `id`, `created_at`
and `source` are then unconditionally overwritten/added — even if the
model supplied those keys — while every other key keeps its parsed
value; on the concrete input the result has title "Pasta", servings 2
and the normalizer-generated metadata. -/
theorem parsed_fields_kept_meta_overwritten (freshId createdAt raw : String) (ms : RecipeDict)
    (hb1 : '\x7b' ∈ raw.data) (hb2 : '\x7d' ∈ raw.data)
    (hl : loads (extractJsonStr raw) = Except.ok (JValue.jobj ms)) :
    (∃ r, _parse_recipe_response freshId createdAt raw = Except.ok r ∧
      dictGet r "id" = some (JValue.jstr freshId) ∧
      dictGet r "created_at" = some (JValue.jstr createdAt) ∧
      dictGet r "source" = some (JValue.jstr "ai_generated") ∧
      ∀ k, k ≠ "id" → k ≠ "created_at" → k ≠ "source" → dictGet r k = dictGet ms k) ∧
    (∃ r2, _parse_recipe_response "uuid-5" "2024-01-05T00:00:00"
        "Here you go: \x7b\"title\":\"Pasta\",\"servings\":2\x7d enjoy!" = Except.ok r2 ∧
      dictGet r2 "title" = some (JValue.jstr "Pasta") ∧
      dictGet r2 "servings" = some (JValue.jnum 2) ∧
      dictGet r2 "id" = some (JValue.jstr "uuid-5") ∧
      dictGet r2 "created_at" = some (JValue.jstr "2024-01-05T00:00:00") ∧
      dictGet r2 "source" = some (JValue.jstr "ai_generated")) := by
  constructor
  · rw [parse_recipe_response_eq, if_neg (guard_false_of_braces raw hb1 hb2), hl]
    dsimp only
    refine ⟨_, rfl, ?_, ?_, ?_, ?_⟩
    · rw [dictGet_setKey_other _ _ _ _ (by decide : ("id" : String) ≠ "source"),
        dictGet_setKey_other _ _ _ _ (by decide : ("id" : String) ≠ "created_at"),
        dictGet_setKey_same]
    · rw [dictGet_setKey_other _ _ _ _ (by decide : ("created_at" : String) ≠ "source"),
        dictGet_setKey_same]
    · rw [dictGet_setKey_same]
    · intro k hk1 hk2 hk3
      rw [dictGet_setKey_other _ _ _ _ hk3, dictGet_setKey_other _ _ _ _ hk2,
        dictGet_setKey_other _ _ _ _ hk1]
  · exact ⟨_, rfl, rfl, rfl, rfl, rfl, rfl⟩

/-- C3 witness: a model output whose JSON block carries a field `a`
keeps it, and the metadata fields come from the normalizer. -/
theorem parsed_fields_kept_meta_overwritten_witness :
    ∃ r, _parse_recipe_response "uuid-6" "2024-01-06T00:00:00" "\x7b\"a\":1\x7d" =
        Except.ok r ∧
      dictGet r "id" = some (JValue.jstr "uuid-6") ∧
      dictGet r "created_at" = some (JValue.jstr "2024-01-06T00:00:00") ∧
      dictGet r "source" = some (JValue.jstr "ai_generated") ∧
      dictGet r "a" = some (JValue.jnum 1) := by
  obtain ⟨r, h1, h2, h3, h4, h5⟩ := (parsed_fields_kept_meta_overwritten "uuid-6"
    "2024-01-06T00:00:00" "\x7b\"a\":1\x7d" [("a", JValue.jnum 1)]
    (by decide) (by decide) rfl).1
  refine ⟨r, h1, h2, h3, h4, ?_⟩
  rw [h5 "a" (by decide) (by decide) (by decide)]
  rfl

/-- C4 (confirmed): the slice handed to the JSON decoder runs from the
first opening brace to the last closing brace of the whole input (not a
balanced or minimal match); on the two-block input the whole slice is
one invalid JSON unit ("Extra data"), so the parsing step falls back. -/
theorem slice_first_open_to_last_close (raw : String)
    (hb1 : '\x7b' ∈ raw.data) (hb2 : '\x7d' ∈ raw.data) :
    (extractJsonStr raw).data = sliceFirstToLast raw.data ∧
    extractJsonStr "\x7b\"a\":1\x7d middle text \x7b\"title\":\"X\"\x7d" =
      "\x7b\"a\":1\x7d middle text \x7b\"title\":\"X\"\x7d" ∧
    loads "\x7b\"a\":1\x7d middle text \x7b\"title\":\"X\"\x7d" =
      Except.error "Extra data" ∧
    _parse_recipe_response "uuid-7" "2024-01-07T00:00:00"
        "\x7b\"a\":1\x7d middle text \x7b\"title\":\"X\"\x7d" =
      Except.ok (_create_fallback_recipe "uuid-7" "2024-01-07T00:00:00"
        "\x7b\"a\":1\x7d middle text \x7b\"title\":\"X\"\x7d") :=
  ⟨extractJsonStr_eq_sliceFirstToLast raw hb1 hb2, rfl, rfl, rfl⟩

/-- C4 witness: the implementation slice and the spec's
first-to-last-brace slice agree on a concrete mixed input. -/
theorem slice_first_open_to_last_close_witness :
    (extractJsonStr "a\x7bb\x7dc").data = sliceFirstToLast "a\x7bb\x7dc".data ∧
    extractJsonStr "\x7b\"a\":1\x7d middle text \x7b\"title\":\"X\"\x7d" =
      "\x7b\"a\":1\x7d middle text \x7b\"title\":\"X\"\x7d" ∧
    loads "\x7b\"a\":1\x7d middle text \x7b\"title\":\"X\"\x7d" =
      Except.error "Extra data" ∧
    _parse_recipe_response "uuid-7" "2024-01-07T00:00:00"
        "\x7b\"a\":1\x7d middle text \x7b\"title\":\"X\"\x7d" =
      Except.ok (_create_fallback_recipe "uuid-7" "2024-01-07T00:00:00"
        "\x7b\"a\":1\x7d middle text \x7b\"title\":\"X\"\x7d") :=
  slice_first_open_to_last_close "a\x7bb\x7dc" (by decide) (by decide)

/-- C10 (confirmed): when both braces occur but the last closing brace
is at or before the first opening brace, the guard passes, the slice is
empty, the decode fails ("Expecting value"), and the parsing step
returns the fallback Recipe. -/
theorem inverted_braces_fallback (freshId createdAt raw : String)
    (hb1 : '\x7b' ∈ raw.data) (hb2 : '\x7d' ∈ raw.data)
    (horder : pyRfind raw '\x7d' ≤ pyFind raw '\x7b') :
    (extractJsonStr raw).data = [] ∧
    loads (extractJsonStr raw) = Except.error "Expecting value" ∧
    _parse_recipe_response freshId createdAt raw =
      Except.ok (_create_fallback_recipe freshId createdAt raw) := by
  obtain ⟨i, hi⟩ := findIdxOpt_isSome_of_mem '\x7b' raw.data hb1
  obtain ⟨j, hj⟩ := findIdxOpt_isSome_of_mem '\x7d' raw.data.reverse (by simpa using hb2)
  have hd := extractJsonStr_data raw i j hi hj
  have hFind : pyFind raw '\x7b' = (i : Int) := by simp [pyFind, hi]
  have hRfind : pyRfind raw '\x7d' = ((raw.data.length - 1 - j : Nat) : Int) := by
    simp [pyRfind, hj]
  rw [hFind, hRfind] at horder
  have hLi : raw.data.length - 1 - j ≤ i := by exact_mod_cast horder
  have hic : raw.data.get? i = some '\x7b' := (findIdxOpt_get _ _ _ hi).2
  have hjlen : j < raw.data.length := by
    have := (findIdxOpt_get _ _ _ hj).1
    simpa using this
  have hjc : raw.data.get? (raw.data.length - 1 - j) = some '\x7d' := by
    have h2 := (findIdxOpt_get _ _ _ hj).2
    rw [List.get?_eq_getElem?] at h2 ⊢
    rw [List.getElem?_reverse hjlen] at h2
    exact h2
  have hne : raw.data.length - 1 - j ≠ i := by
    intro he
    rw [he, hic] at hjc
    simp at hjc
  have hempty : (extractJsonStr raw).data = [] := by
    rw [hd, List.drop_eq_nil_iff, List.length_take]
    omega
  refine ⟨hempty, loads_empty_of_data_nil _ hempty, ?_⟩
  rw [parse_recipe_response_eq, if_neg (guard_false_of_braces raw hb1 hb2),
    loads_empty_of_data_nil _ hempty]

/-- C10 witness: the input with a closing brace before the opening one
passes the guard and lands in the fallback. -/
theorem inverted_braces_fallback_witness :
    (extractJsonStr "\x7d\x7b").data = [] ∧
    loads (extractJsonStr "\x7d\x7b") = Except.error "Expecting value" ∧
    _parse_recipe_response "uuid-8" "2024-01-08T00:00:00" "\x7d\x7b" =
      Except.ok (_create_fallback_recipe "uuid-8" "2024-01-08T00:00:00" "\x7d\x7b") :=
  inverted_braces_fallback "uuid-8" "2024-01-08T00:00:00" "\x7d\x7b"
    (by decide) (by decide) (by decide)

theorem resp400_body :
    resp400.body = "\x7b\"error\": \"Ingredients list is required\"\x7d" := by
  simp only [resp400, pyDumps, pyDumpsMembers]
  rfl

theorem resp500_body :
    resp500.body = "\x7b\"error\": \"Internal server error\"\x7d" := by
  simp only [resp500, pyDumps, pyDumpsMembers]
  rfl

/-- C5 (confirmed): a missing or empty (Python-falsy) `ingredients`
field yields the fixed 400 validation response, and neither the
inference collaborator nor the persistence collaborator is invoked. -/
theorem empty_ingredients_http400_before_inference (eventBody : Option String)
    (inference : Except String String) (dbOk : Bool) (freshId createdAt : String)
    (body : RecipeDict)
    (hbody : loads (eventBody.getD "\x7b\x7d") = Except.ok (JValue.jobj body))
    (hing : pyTruthy (dictGetD body "ingredients" (JValue.jarr [])) = false) :
    lambda_handler eventBody inference dbOk freshId createdAt =
      ⟨resp400, false, false⟩ ∧
    resp400.statusCode = 400 ∧
    resp400.body = "\x7b\"error\": \"Ingredients list is required\"\x7d" := by
  refine ⟨?_, rfl, resp400_body⟩
  unfold lambda_handler
  rw [hbody]
  dsimp only
  rw [if_pos hing]

/-- C5 witness: an empty request body means missing ingredients and the
400 path, with no collaborator invoked. -/
theorem empty_ingredients_http400_before_inference_witness :
    lambda_handler (some "\x7b\x7d") (Except.ok "whatever") true "uuid-9"
        "2024-01-09T00:00:00" = ⟨resp400, false, false⟩ ∧
    resp400.statusCode = 400 ∧
    resp400.body = "\x7b\"error\": \"Ingredients list is required\"\x7d" :=
  empty_ingredients_http400_before_inference (some "\x7b\x7d") (Except.ok "whatever")
    true "uuid-9" "2024-01-09T00:00:00" [] rfl rfl

/-- Reduction of the handler on the happy path up to the persistence
decision. -/
theorem lambda_handler_reaches_save (eventBody : Option String) (text : String)
    (db : Bool) (freshId createdAt : String) (body : RecipeDict)
    (ingList dietList : List String) (recipe : RecipeDict)
    (hbody : loads (eventBody.getD "\x7b\x7d") = Except.ok (JValue.jobj body))
    (hing : pyTruthy (dictGetD body "ingredients" (JValue.jarr [])) = true)
    (hingl : toJoinList (dictGetD body "ingredients" (JValue.jarr [])) = some ingList)
    (hdiet : (if pyTruthy (dictGetD body "dietary_restrictions" (JValue.jarr []))
        then toJoinList (dictGetD body "dietary_restrictions" (JValue.jarr []))
        else some []) = some dietList)
    (hrec : _parse_recipe_response freshId createdAt text = Except.ok recipe) :
    lambda_handler eventBody (Except.ok text) db freshId createdAt =
      if pyTruthy (dictGetD body "save_to_db" (JValue.jbool true)) = true
      then ⟨⟨200, stdHeaders, pyDumps (JValue.jobj recipe)⟩, true, true⟩
      else ⟨⟨200, stdHeaders, pyDumps (JValue.jobj recipe)⟩, true, false⟩ := by
  unfold lambda_handler
  rw [hbody]
  dsimp only
  rw [if_neg (by rw [hing]; simp)]
  rw [hingl]
  dsimp only
  rw [hdiet]
  dsimp only
  rw [hrec]

/-- C6 (confirmed): persistence is best-effort.  On the happy path,
when `save_to_db` is truthy the handler's outcome is identical whether
the `put_item` collaborator fails or succeeds (the failure is
swallowed), and the caller receives the full Recipe either way; when
`save_to_db` is falsy the persistence collaborator is never invoked and
the caller still receives the same success response. -/
theorem persistence_best_effort (eventBody : Option String) (text : String)
    (dbOk : Bool) (freshId createdAt : String) (body : RecipeDict)
    (ingList dietList : List String) (recipe : RecipeDict)
    (hbody : loads (eventBody.getD "\x7b\x7d") = Except.ok (JValue.jobj body))
    (hing : pyTruthy (dictGetD body "ingredients" (JValue.jarr [])) = true)
    (hingl : toJoinList (dictGetD body "ingredients" (JValue.jarr [])) = some ingList)
    (hdiet : (if pyTruthy (dictGetD body "dietary_restrictions" (JValue.jarr []))
        then toJoinList (dictGetD body "dietary_restrictions" (JValue.jarr []))
        else some []) = some dietList)
    (hrec : _parse_recipe_response freshId createdAt text = Except.ok recipe) :
    (pyTruthy (dictGetD body "save_to_db" (JValue.jbool true)) = true →
      lambda_handler eventBody (Except.ok text) true freshId createdAt =
        lambda_handler eventBody (Except.ok text) false freshId createdAt ∧
      (lambda_handler eventBody (Except.ok text) dbOk freshId createdAt).resp =
        ⟨200, stdHeaders, pyDumps (JValue.jobj recipe)⟩ ∧
      (lambda_handler eventBody (Except.ok text) dbOk freshId createdAt).calledDb = true) ∧
    (pyTruthy (dictGetD body "save_to_db" (JValue.jbool true)) = false →
      (lambda_handler eventBody (Except.ok text) dbOk freshId createdAt).calledDb = false ∧
      (lambda_handler eventBody (Except.ok text) dbOk freshId createdAt).resp =
        ⟨200, stdHeaders, pyDumps (JValue.jobj recipe)⟩) := by
  have hred := fun db => lambda_handler_reaches_save eventBody text db freshId createdAt
    body ingList dietList recipe hbody hing hingl hdiet hrec
  constructor
  · intro hs
    rw [hred true, hred false, hred dbOk, if_pos hs]
    exact ⟨rfl, rfl, rfl⟩
  · intro hs
    rw [hred dbOk, if_neg (by rw [hs]; simp)]
    exact ⟨rfl, rfl⟩

/-- C6 witness: a concrete request that reaches persistence; with the
default `save_to_db = True`, a failing and a succeeding `put_item`
produce the same outcome. -/
theorem persistence_best_effort_witness :
    lambda_handler (some "\x7b\"ingredients\":[\"egg\"]\x7d") (Except.ok "\x7b\x7d")
        true "uuid-10" "2024-01-10T00:00:00" =
      lambda_handler (some "\x7b\"ingredients\":[\"egg\"]\x7d") (Except.ok "\x7b\x7d")
        false "uuid-10" "2024-01-10T00:00:00" ∧
    (lambda_handler (some "\x7b\"ingredients\":[\"egg\"]\x7d") (Except.ok "\x7b\x7d")
        true "uuid-10" "2024-01-10T00:00:00").resp =
      ⟨200, stdHeaders, pyDumps (JValue.jobj
        [("id", JValue.jstr "uuid-10"), ("created_at", JValue.jstr "2024-01-10T00:00:00"),
         ("source", JValue.jstr "ai_generated")])⟩ ∧
    (lambda_handler (some "\x7b\"ingredients\":[\"egg\"]\x7d") (Except.ok "\x7b\x7d")
        true "uuid-10" "2024-01-10T00:00:00").calledDb = true :=
  (persistence_best_effort (some "\x7b\"ingredients\":[\"egg\"]\x7d") "\x7b\x7d"
    true "uuid-10" "2024-01-10T00:00:00" [("ingredients", JValue.jarr [JValue.jstr "egg"])]
    ["egg"] []
    [("id", JValue.jstr "uuid-10"), ("created_at", JValue.jstr "2024-01-10T00:00:00"),
     ("source", JValue.jstr "ai_generated")]
    rfl rfl rfl rfl rfl).1 rfl

/-- Every outcome of the handler is one of five fixed shapes. -/
theorem lambda_handler_cases (eventBody : Option String)
    (inference : Except String String) (dbOk : Bool) (freshId createdAt : String) :
    lambda_handler eventBody inference dbOk freshId createdAt = ⟨resp400, false, false⟩ ∨
    lambda_handler eventBody inference dbOk freshId createdAt = ⟨resp500, false, false⟩ ∨
    lambda_handler eventBody inference dbOk freshId createdAt = ⟨resp500, true, false⟩ ∨
    (∃ recipe,
      lambda_handler eventBody inference dbOk freshId createdAt =
        ⟨⟨200, stdHeaders, pyDumps (JValue.jobj recipe)⟩, true, true⟩ ∨
      lambda_handler eventBody inference dbOk freshId createdAt =
        ⟨⟨200, stdHeaders, pyDumps (JValue.jobj recipe)⟩, true, false⟩) := by
  unfold lambda_handler
  rcases hl : loads (eventBody.getD "\x7b\x7d") with e | v
  · right; left; rfl
  · rcases v with _ | b | n | lex | s | xs | body
    · right; left; rfl
    · right; left; rfl
    · right; left; rfl
    · right; left; rfl
    · right; left; rfl
    · right; left; rfl
    · dsimp only
      by_cases hing : pyTruthy (dictGetD body "ingredients" (JValue.jarr [])) = false
      · rw [if_pos hing]; left; rfl
      · rw [if_neg hing]
        rcases hj : toJoinList (dictGetD body "ingredients" (JValue.jarr [])) with _ | ingList
        · right; left; rfl
        · rcases hd : (if pyTruthy (dictGetD body "dietary_restrictions" (JValue.jarr []))
              then toJoinList (dictGetD body "dietary_restrictions" (JValue.jarr []))
              else some []) with _ | dietList
          · right; left; rfl
          · dsimp only
            rcases inference with e2 | text
            · right; right; left; rfl
            · dsimp only
              rcases hp : _parse_recipe_response freshId createdAt text with e3 | recipe
              · right; right; left; rfl
              · by_cases hs : pyTruthy (dictGetD body "save_to_db" (JValue.jbool true)) = true
                · right; right; right
                  exact ⟨recipe, Or.inl (by dsimp only; rw [if_pos hs])⟩
                · right; right; right
                  exact ⟨recipe, Or.inr (by dsimp only; rw [if_neg hs])⟩

/-- C9 (confirmed): every response of the handler has status 200, 400
or 500; all three carry the same fixed four-entry header map; and the
400 and 500 bodies are the fixed constant strings, independent of the
input and of the exception. -/
theorem handler_responses_shape (eventBody : Option String)
    (inference : Except String String) (dbOk : Bool) (freshId createdAt : String) :
    ((∃ b, (lambda_handler eventBody inference dbOk freshId createdAt).resp =
        ⟨200, stdHeaders, b⟩) ∨
      (lambda_handler eventBody inference dbOk freshId createdAt).resp = resp400 ∨
      (lambda_handler eventBody inference dbOk freshId createdAt).resp = resp500) ∧
    resp400.statusCode = 400 ∧ resp500.statusCode = 500 ∧
    resp400.headers = stdHeaders ∧ resp500.headers = stdHeaders ∧
    stdHeaders = [("Content-Type", "application/json"),
      ("Access-Control-Allow-Origin", "*"),
      ("Access-Control-Allow-Headers", "Content-Type,Authorization"),
      ("Access-Control-Allow-Methods", "POST,OPTIONS")] ∧
    resp400.body = "\x7b\"error\": \"Ingredients list is required\"\x7d" ∧
    resp500.body = "\x7b\"error\": \"Internal server error\"\x7d" := by
  refine ⟨?_, rfl, rfl, rfl, rfl, rfl, resp400_body, resp500_body⟩
  rcases lambda_handler_cases eventBody inference dbOk freshId createdAt with
    h | h | h | ⟨recipe, h | h⟩ <;> rw [h]
  · right; left; rfl
  · right; right; rfl
  · right; right; rfl
  · exact Or.inl ⟨pyDumps (JValue.jobj recipe), rfl⟩
  · exact Or.inl ⟨pyDumps (JValue.jobj recipe), rfl⟩

/-- C8 (confirmed): the prompt builder is referentially transparent —
it is a pure function of the request fields, so identical fields give a
byte-identical prompt (no randomness or timestamps enter the
definition). -/
theorem build_prompt_deterministic (i1 i2 d1 d2 : List String)
    (c1 c2 m1 m2 : Option String) (f1 f2 : String)
    (hi : i1 = i2) (hd : d1 = d2) (hc : c1 = c2) (hm : m1 = m2) (hf : f1 = f2) :
    _build_prompt i1 d1 c1 m1 f1 = _build_prompt i2 d2 c2 m2 f2 := by
  subst hi; subst hd; subst hc; subst hm; subst hf; rfl

/-- C8 witness: two calls on the same concrete request coincide. -/
theorem build_prompt_deterministic_witness :
    _build_prompt ["egg", "flour"] ["vegan"] (some "italian") none "easy" =
      _build_prompt ["egg", "flour"] ["vegan"] (some "italian") none "easy" :=
  build_prompt_deterministic ["egg", "flour"] ["egg", "flour"] ["vegan"] ["vegan"]
    (some "italian") (some "italian") none none "easy" "easy" rfl rfl rfl rfl rfl

theorem isPrefOf_refl_append (m r : List Char) : isPrefOf m (m ++ r) = true := by
  induction m with
  | nil => rfl
  | cons x t ih => simp [isPrefOf, ih]

theorem isPrefOf_extend (m : List Char) :
    ∀ l r, isPrefOf m l = true → isPrefOf m (l ++ r) = true := by
  induction m with
  | nil => intro l r _; rfl
  | cons x t ih =>
    intro l r h
    cases l with
    | nil => simp [isPrefOf] at h
    | cons y ys =>
      simp only [isPrefOf, Bool.and_eq_true] at h
      simp [isPrefOf, h.1, ih ys r h.2]

theorem isPrefOf_append (m a b : List Char) :
    isPrefOf m (a ++ b) =
      if m.length ≤ a.length then isPrefOf m a
      else isPrefOf a m && isPrefOf (m.drop a.length) b := by
  induction a generalizing m with
  | nil =>
    cases m with
    | nil => simp [isPrefOf]
    | cons y m' => simp [isPrefOf]
  | cons x a' ih =>
    cases m with
    | nil => simp [isPrefOf]
    | cons y m' =>
      rw [List.cons_append]
      simp only [isPrefOf, List.length_cons, ih m', Nat.add_le_add_iff_right, List.drop_succ_cons]
      by_cases hlen : m'.length ≤ a'.length
      · simp [hlen]
      · simp only [hlen, if_false]
        rw [Bool.and_assoc]
        congr 1
        simp [BEq.comm]

theorem isSubB_cons_or (m : List Char) (x : Char) (t : List Char) :
    isSubB m (x :: t) = (isPrefOf m (x :: t) || isSubB m t) := rfl

theorem isSubB_self_append (m b : List Char) : isSubB m (m ++ b) = true := by
  cases m with
  | nil =>
    cases b with
    | nil => rfl
    | cons x t => rfl
  | cons c mt =>
    simp [isSubB_cons_or, isPrefOf, isPrefOf_refl_append]

theorem isSubB_cons_of (m : List Char) (x : Char) (l : List Char)
    (h : isSubB m l = true) : isSubB m (x :: l) = true := by
  simp [isSubB_cons_or, h]

theorem isSubB_append_left (m a l : List Char) (h : isSubB m l = true) :
    isSubB m (a ++ l) = true := by
  induction a with
  | nil => simpa using h
  | cons x t ih => simpa using isSubB_cons_of m x (t ++ l) ih

theorem isSubB_append_right (m : List Char) :
    ∀ l r, isSubB m l = true → isSubB m (l ++ r) = true := by
  intro l
  induction l with
  | nil =>
    intro r h
    cases m with
    | nil =>
      cases r with
      | nil => rfl
      | cons x t => rfl
    | cons c mt => simp [isSubB] at h
  | cons x t ih =>
    intro r h
    rw [isSubB_cons_or, Bool.or_eq_true] at h
    rcases h with h | h
    · rw [List.cons_append, isSubB_cons_or]
      have := isPrefOf_extend m (x :: t) r h
      rw [List.cons_append] at this
      simp [this]
    · rw [List.cons_append, isSubB_cons_or]
      simp [ih r h]

theorem isSubB_mem_joinSep (x : String) (l : List String) (hx : x ∈ l) :
    isSubB x.data (joinSep ", " l).data = true := by
  induction l with
  | nil => simp at hx
  | cons y t ih =>
    rcases List.mem_cons.mp hx with heq | hmem
    · subst heq
      cases t with
      | nil =>
        have := isSubB_self_append x.data []
        simpa using this
      | cons z zs =>
        show isSubB x.data (x ++ ", " ++ joinSep ", " (z :: zs)).data = true
        have hd : (x ++ ", " ++ joinSep ", " (z :: zs)).data =
            x.data ++ (", " ++ joinSep ", " (z :: zs)).data := by
          simp [String.data_append]
        rw [hd]
        exact isSubB_self_append _ _
    · cases t with
      | nil => simp at hmem
      | cons z zs =>
        show isSubB x.data (y ++ ", " ++ joinSep ", " (z :: zs)).data = true
        have hd : (y ++ ", " ++ joinSep ", " (z :: zs)).data =
            (y.data ++ ", ".data) ++ (joinSep ", " (z :: zs)).data := by
          simp [String.data_append]
        rw [hd]
        exact isSubB_append_left _ _ _ (ih hmem)

theorem splitNl_cons_nl (b : List Char) : splitNl ('\n' :: b) = [] :: splitNl b := by
  simp [splitNl]

theorem splitNl_append_nl (a b : List Char) (ha : '\n' ∉ a) :
    splitNl (a ++ '\n' :: b) = a :: splitNl b := by
  induction a with
  | nil => simp [splitNl]
  | cons x t ih =>
    have hx : ¬ x = '\n' := fun h => ha (by simp [h])
    have ht : '\n' ∉ t := fun h => ha (List.mem_cons_of_mem _ h)
    rw [List.cons_append]
    simp only [splitNl, hx, if_false]
    rw [ih ht]

theorem splitNl_two_chunks_nl (a1 a2 b : List Char)
    (h1 : '\n' ∉ a1) (h2 : '\n' ∉ a2) :
    splitNl (a1 ++ (a2 ++ '\n' :: b)) = (a1 ++ a2) :: splitNl b := by
  rw [← List.append_assoc]
  exact splitNl_append_nl _ _ (by simp [List.mem_append, h1, h2])

theorem joinSep_no_nl (l : List String) (h : ∀ x ∈ l, '\n' ∉ x.data) :
    '\n' ∉ (joinSep ", " l).data := by
  induction l with
  | nil => simp [joinSep]
  | cons y t ih =>
    cases t with
    | nil =>
      simpa [joinSep] using h y (by simp)
    | cons z zs =>
      show '\n' ∉ (y ++ ", " ++ joinSep ", " (z :: zs)).data
      have hd : (y ++ ", " ++ joinSep ", " (z :: zs)).data =
          y.data ++ (", ".data ++ (joinSep ", " (z :: zs)).data) := by
        simp [String.data_append]
      rw [hd]
      simp only [List.mem_append]
      push_neg
      refine ⟨h y (by simp), ?_, ?_⟩
      · decide
      · exact ih (fun x hx => h x (List.mem_cons_of_mem _ hx))

/-- The prompt, flattened to its character list: header, ingredients,
requirements block, the three conditional lines, footer. -/
theorem build_prompt_data (ing diet : List String) (cuis meal : Option String) (diff : String) :
    (_build_prompt ing diet cuis meal diff).data =
      "Generate a detailed recipe using the following ingredients: ".data ++
      (joinSep ", " ing).data ++
      '\n' :: '\n' :: ("Requirements:".data ++
      '\n' :: ("- Difficulty level: ".data ++ diff.data ++
      '\n' :: (
        (if diet.isEmpty then []
         else "- Dietary restrictions: ".data ++ (joinSep ", " diet).data ++ ['\n']) ++
        ((if optTruthy cuis
          then "- Cuisine type: ".data ++ (optVal cuis).data ++ ['\n'] else []) ++
         ((if optTruthy meal
           then "- Meal type: ".data ++ (optVal meal).data ++ ['\n'] else []) ++
          promptFooter.data))))) := by
  have hreq : ("\n\nRequirements:\n- Difficulty level: " : String).data =
      '\n' :: '\n' :: ("Requirements:".data ++ '\n' :: "- Difficulty level: ".data) := rfl
  have hnl : ("\n" : String).data = ['\n'] := rfl
  unfold _build_prompt
  rcases cuis with _ | c
  · rcases meal with _ | m
    · by_cases hd : diet.isEmpty <;>
        simp [String.data_append, hreq, hnl, optTruthy, optVal, hd, List.append_assoc]
    · by_cases hd : diet.isEmpty <;> by_cases hm : m.isEmpty <;>
        simp [String.data_append, hreq, hnl, optTruthy, optVal, hd, hm, List.append_assoc]
  · rcases meal with _ | m
    · by_cases hd : diet.isEmpty <;> by_cases hc : c.isEmpty <;>
        simp [String.data_append, hreq, hnl, optTruthy, optVal, hd, hc, List.append_assoc]
    · by_cases hd : diet.isEmpty <;> by_cases hc : c.isEmpty <;> by_cases hm : m.isEmpty <;>
        simp [String.data_append, hreq, hnl, optTruthy, optVal, hd, hc, hm, List.append_assoc]

theorem splitNl_if_piece_neg (c : Bool) (mk vd X : List Char)
    (hmk : '\n' ∉ mk) (hv : '\n' ∉ vd) :
    splitNl ((if c = true then [] else mk ++ vd ++ ['\n']) ++ X) =
      (if c = true then [] else [mk ++ vd]) ++ splitNl X := by
  by_cases h : c = true
  · simp [h]
  · simp only [if_neg h]
    simpa [List.append_assoc] using splitNl_two_chunks_nl mk vd X hmk hv

theorem splitNl_if_piece_pos (c : Bool) (mk vd X : List Char)
    (hmk : '\n' ∉ mk) (hv : '\n' ∉ vd) :
    splitNl ((if c = true then mk ++ vd ++ ['\n'] else []) ++ X) =
      (if c = true then [mk ++ vd] else []) ++ splitNl X := by
  by_cases h : c = true
  · simp only [if_pos h]
    simpa [List.append_assoc] using splitNl_two_chunks_nl mk vd X hmk hv
  · simp [h]

/-- The lines of the prompt: the ingredients line, a blank line, the
requirements heading, the difficulty line, the three conditional lines,
then the footer's lines. -/
theorem splitNl_build_prompt (ing diet : List String) (cuis meal : Option String) (diff : String)
    (hing : '\n' ∉ (joinSep ", " ing).data)
    (hdiet : '\n' ∉ (joinSep ", " diet).data)
    (hdiff : '\n' ∉ diff.data)
    (hcuis : '\n' ∉ (optVal cuis).data)
    (hmeal : '\n' ∉ (optVal meal).data) :
    splitNl (_build_prompt ing diet cuis meal diff).data =
      ("Generate a detailed recipe using the following ingredients: ".data ++
        (joinSep ", " ing).data) ::
      [] ::
      "Requirements:".data ::
      ("- Difficulty level: ".data ++ diff.data) ::
      ((if diet.isEmpty then []
        else ["- Dietary restrictions: ".data ++ (joinSep ", " diet).data]) ++
       ((if optTruthy cuis then ["- Cuisine type: ".data ++ (optVal cuis).data] else []) ++
        ((if optTruthy meal then ["- Meal type: ".data ++ (optVal meal).data] else []) ++
         splitNl promptFooter.data))) := by
  rw [build_prompt_data]
  refine (splitNl_append_nl _ _ ?_).trans ?_
  · simp only [List.mem_append]
    push_neg
    exact ⟨by decide, hing⟩
  congr 1
  refine (splitNl_cons_nl _).trans ?_
  congr 1
  refine (splitNl_append_nl _ _ ?_).trans ?_
  · decide
  congr 1
  refine (splitNl_append_nl _ _ ?_).trans ?_
  · simp only [List.mem_append]
    push_neg
    exact ⟨by decide, hdiff⟩
  congr 1
  refine (splitNl_if_piece_neg _ _ _ _ ?_ hdiet).trans ?_
  · decide
  congr 1
  refine (splitNl_if_piece_pos _ _ _ _ ?_ hcuis).trans ?_
  · decide
  congr 1
  refine splitNl_if_piece_pos _ _ _ _ ?_ hmeal
  decide

theorem isPrefOf_append_of_ne (m a x : List Char)
    (h : (if m.length ≤ a.length then isPrefOf m a else isPrefOf a m) = false) :
    isPrefOf m (a ++ x) = false := by
  rw [isPrefOf_append]
  by_cases hl : m.length ≤ a.length
  · rw [if_pos hl]
    rw [if_pos hl] at h
    exact h
  · rw [if_neg hl]
    rw [if_neg hl] at h
    rw [h, Bool.false_and]

theorem dm_nil :
    isPrefOf ['-', ' ', 'D', 'i', 'e', 't', 'a', 'r', 'y', ' ', 'r', 'e', 's', 't', 'r', 'i', 'c', 't', 'i', 'o', 'n', 's', ':', ' '] ([] : List Char) = false := rfl

theorem dm_req :
    isPrefOf ['-', ' ', 'D', 'i', 'e', 't', 'a', 'r', 'y', ' ', 'r', 'e', 's', 't', 'r', 'i', 'c', 't', 'i', 'o', 'n', 's', ':', ' '] ['R', 'e', 'q', 'u', 'i', 'r', 'e', 'm', 'e', 'n', 't', 's', ':'] = false := rfl

theorem dm_not_header (x : List Char) :
    isPrefOf ['-', ' ', 'D', 'i', 'e', 't', 'a', 'r', 'y', ' ', 'r', 'e', 's', 't', 'r', 'i', 'c', 't', 'i', 'o', 'n', 's', ':', ' ']
      (['G', 'e', 'n', 'e', 'r', 'a', 't', 'e', ' ', 'a', ' ', 'd', 'e', 't', 'a', 'i', 'l', 'e', 'd', ' ', 'r', 'e', 'c', 'i', 'p', 'e', ' ', 'u', 's', 'i', 'n', 'g', ' ', 't', 'h', 'e', ' ', 'f', 'o', 'l', 'l', 'o', 'w', 'i', 'n', 'g', ' ', 'i', 'n', 'g', 'r', 'e', 'd', 'i', 'e', 'n', 't', 's', ':', ' '] ++ x) = false :=
  isPrefOf_append_of_ne _ _ _ (by decide)

theorem dm_not_diffline (x : List Char) :
    isPrefOf ['-', ' ', 'D', 'i', 'e', 't', 'a', 'r', 'y', ' ', 'r', 'e', 's', 't', 'r', 'i', 'c', 't', 'i', 'o', 'n', 's', ':', ' ']
      (['-', ' ', 'D', 'i', 'f', 'f', 'i', 'c', 'u', 'l', 't', 'y', ' ', 'l', 'e', 'v', 'e', 'l', ':', ' '] ++ x) = false :=
  isPrefOf_append_of_ne _ _ _ (by decide)

theorem cm_nil :
    isPrefOf ['-', ' ', 'C', 'u', 'i', 's', 'i', 'n', 'e', ' ', 't', 'y', 'p', 'e', ':', ' '] ([] : List Char) = false := rfl

theorem cm_req :
    isPrefOf ['-', ' ', 'C', 'u', 'i', 's', 'i', 'n', 'e', ' ', 't', 'y', 'p', 'e', ':', ' '] ['R', 'e', 'q', 'u', 'i', 'r', 'e', 'm', 'e', 'n', 't', 's', ':'] = false := rfl

theorem cm_not_header (x : List Char) :
    isPrefOf ['-', ' ', 'C', 'u', 'i', 's', 'i', 'n', 'e', ' ', 't', 'y', 'p', 'e', ':', ' ']
      (['G', 'e', 'n', 'e', 'r', 'a', 't', 'e', ' ', 'a', ' ', 'd', 'e', 't', 'a', 'i', 'l', 'e', 'd', ' ', 'r', 'e', 'c', 'i', 'p', 'e', ' ', 'u', 's', 'i', 'n', 'g', ' ', 't', 'h', 'e', ' ', 'f', 'o', 'l', 'l', 'o', 'w', 'i', 'n', 'g', ' ', 'i', 'n', 'g', 'r', 'e', 'd', 'i', 'e', 'n', 't', 's', ':', ' '] ++ x) = false :=
  isPrefOf_append_of_ne _ _ _ (by decide)

theorem cm_not_diffline (x : List Char) :
    isPrefOf ['-', ' ', 'C', 'u', 'i', 's', 'i', 'n', 'e', ' ', 't', 'y', 'p', 'e', ':', ' ']
      (['-', ' ', 'D', 'i', 'f', 'f', 'i', 'c', 'u', 'l', 't', 'y', ' ', 'l', 'e', 'v', 'e', 'l', ':', ' '] ++ x) = false :=
  isPrefOf_append_of_ne _ _ _ (by decide)

theorem mm_nil :
    isPrefOf ['-', ' ', 'M', 'e', 'a', 'l', ' ', 't', 'y', 'p', 'e', ':', ' '] ([] : List Char) = false := rfl

theorem mm_req :
    isPrefOf ['-', ' ', 'M', 'e', 'a', 'l', ' ', 't', 'y', 'p', 'e', ':', ' '] ['R', 'e', 'q', 'u', 'i', 'r', 'e', 'm', 'e', 'n', 't', 's', ':'] = false := rfl

theorem mm_not_header (x : List Char) :
    isPrefOf ['-', ' ', 'M', 'e', 'a', 'l', ' ', 't', 'y', 'p', 'e', ':', ' ']
      (['G', 'e', 'n', 'e', 'r', 'a', 't', 'e', ' ', 'a', ' ', 'd', 'e', 't', 'a', 'i', 'l', 'e', 'd', ' ', 'r', 'e', 'c', 'i', 'p', 'e', ' ', 'u', 's', 'i', 'n', 'g', ' ', 't', 'h', 'e', ' ', 'f', 'o', 'l', 'l', 'o', 'w', 'i', 'n', 'g', ' ', 'i', 'n', 'g', 'r', 'e', 'd', 'i', 'e', 'n', 't', 's', ':', ' '] ++ x) = false :=
  isPrefOf_append_of_ne _ _ _ (by decide)

theorem mm_not_diffline (x : List Char) :
    isPrefOf ['-', ' ', 'M', 'e', 'a', 'l', ' ', 't', 'y', 'p', 'e', ':', ' ']
      (['-', ' ', 'D', 'i', 'f', 'f', 'i', 'c', 'u', 'l', 't', 'y', ' ', 'l', 'e', 'v', 'e', 'l', ':', ' '] ++ x) = false :=
  isPrefOf_append_of_ne _ _ _ (by decide)

theorem dm_not_cuisline (x : List Char) :
    isPrefOf ['-', ' ', 'D', 'i', 'e', 't', 'a', 'r', 'y', ' ', 'r', 'e', 's', 't', 'r', 'i', 'c', 't', 'i', 'o', 'n', 's', ':', ' ']
      (['-', ' ', 'C', 'u', 'i', 's', 'i', 'n', 'e', ' ', 't', 'y', 'p', 'e', ':', ' '] ++ x) = false :=
  isPrefOf_append_of_ne _ _ _ (by decide)

theorem dm_not_mealline (x : List Char) :
    isPrefOf ['-', ' ', 'D', 'i', 'e', 't', 'a', 'r', 'y', ' ', 'r', 'e', 's', 't', 'r', 'i', 'c', 't', 'i', 'o', 'n', 's', ':', ' ']
      (['-', ' ', 'M', 'e', 'a', 'l', ' ', 't', 'y', 'p', 'e', ':', ' '] ++ x) = false :=
  isPrefOf_append_of_ne _ _ _ (by decide)

theorem cm_not_dietline (x : List Char) :
    isPrefOf ['-', ' ', 'C', 'u', 'i', 's', 'i', 'n', 'e', ' ', 't', 'y', 'p', 'e', ':', ' ']
      (['-', ' ', 'D', 'i', 'e', 't', 'a', 'r', 'y', ' ', 'r', 'e', 's', 't', 'r', 'i', 'c', 't', 'i', 'o', 'n', 's', ':', ' '] ++ x) = false :=
  isPrefOf_append_of_ne _ _ _ (by decide)

theorem cm_not_mealline (x : List Char) :
    isPrefOf ['-', ' ', 'C', 'u', 'i', 's', 'i', 'n', 'e', ' ', 't', 'y', 'p', 'e', ':', ' ']
      (['-', ' ', 'M', 'e', 'a', 'l', ' ', 't', 'y', 'p', 'e', ':', ' '] ++ x) = false :=
  isPrefOf_append_of_ne _ _ _ (by decide)

theorem mm_not_dietline (x : List Char) :
    isPrefOf ['-', ' ', 'M', 'e', 'a', 'l', ' ', 't', 'y', 'p', 'e', ':', ' ']
      (['-', ' ', 'D', 'i', 'e', 't', 'a', 'r', 'y', ' ', 'r', 'e', 's', 't', 'r', 'i', 'c', 't', 'i', 'o', 'n', 's', ':', ' '] ++ x) = false :=
  isPrefOf_append_of_ne _ _ _ (by decide)

theorem mm_not_cuisline (x : List Char) :
    isPrefOf ['-', ' ', 'M', 'e', 'a', 'l', ' ', 't', 'y', 'p', 'e', ':', ' ']
      (['-', ' ', 'C', 'u', 'i', 's', 'i', 'n', 'e', ' ', 't', 'y', 'p', 'e', ':', ' '] ++ x) = false :=
  isPrefOf_append_of_ne _ _ _ (by decide)

theorem footer_any_dm :
    (splitNl promptFooter.data).any
      (fun l => isPrefOf ['-', ' ', 'D', 'i', 'e', 't', 'a', 'r', 'y', ' ', 'r', 'e', 's', 't', 'r', 'i', 'c', 't', 'i', 'o', 'n', 's', ':', ' '] l) = false := rfl

theorem footer_any_cm :
    (splitNl promptFooter.data).any
      (fun l => isPrefOf ['-', ' ', 'C', 'u', 'i', 's', 'i', 'n', 'e', ' ', 't', 'y', 'p', 'e', ':', ' '] l) = false := rfl

theorem footer_any_mm :
    (splitNl promptFooter.data).any
      (fun l => isPrefOf ['-', ' ', 'M', 'e', 'a', 'l', ' ', 't', 'y', 'p', 'e', ':', ' '] l) = false := rfl

theorem any_ite_nil {α : Type} (c : Prop) [Decidable c] (a : List α) (p : α → Bool) :
    (if c then [] else a).any p = if c then false else a.any p := by
  by_cases h : c <;> simp [h]

theorem any_ite_nil2 {α : Type} (c : Prop) [Decidable c] (a : List α) (p : α → Bool) :
    (if c then a else []).any p = if c then a.any p else false := by
  by_cases h : c <;> simp [h]

/-- C7 counterexample: `cuisine_type` provided as the empty string is
Python-falsy, so no cuisine line is appended although the value was
provided — the claimed "line present iff provided" equivalence fails. -/
theorem prompt_cuisine_empty_provided_no_line :
    (some "" : Option String).isSome = true ∧
    hasLineB (_build_prompt ["chicken"] [] (some "") none "medium") "- Cuisine type: " =
      false := by
  exact ⟨rfl, rfl⟩

/-- C7 (corrected).  As stated the claim fails on `cuisine_type = ""`
(provided but falsy — see the counterexample); `if cuisine_type:` keys
on truthiness, not presence.  Amended: the prompt always contains every
ingredient and the ", "-joined ingredient list, and states the
requested difficulty; and — provided the request's string fields
contain no newline (which would break the line structure) — the prompt
has a "- Dietary restrictions: " line iff the dietary list is
non-empty, a "- Cuisine type: " line iff cuisineType is provided and
non-empty, and a "- Meal type: " line iff mealType is provided and
non-empty. -/
theorem prompt_lines_amended (ing diet : List String) (cuis meal : Option String) (diff : String)
    (hingl : ∀ x ∈ ing, '\n' ∉ x.data)
    (hdietl : ∀ x ∈ diet, '\n' ∉ x.data)
    (hdiff : '\n' ∉ diff.data)
    (hcuis : '\n' ∉ (optVal cuis).data)
    (hmeal : '\n' ∉ (optVal meal).data) :
    (∀ x ∈ ing, containsSubB (_build_prompt ing diet cuis meal diff) x = true) ∧
    containsSubB (_build_prompt ing diet cuis meal diff) (joinSep ", " ing) = true ∧
    containsSubB (_build_prompt ing diet cuis meal diff) diff = true ∧
    hasLineB (_build_prompt ing diet cuis meal diff) "- Dietary restrictions: " =
      !diet.isEmpty ∧
    hasLineB (_build_prompt ing diet cuis meal diff) "- Cuisine type: " = optTruthy cuis ∧
    hasLineB (_build_prompt ing diet cuis meal diff) "- Meal type: " = optTruthy meal := by
  have hing := joinSep_no_nl ing hingl
  have hdietj := joinSep_no_nl diet hdietl
  have hsp := splitNl_build_prompt ing diet cuis meal diff hing hdietj hdiff hcuis hmeal
  refine ⟨?_, ?_, ?_, ?_, ?_, ?_⟩
  · intro x hx
    unfold containsSubB
    rw [build_prompt_data]
    exact isSubB_append_right _ _ _ (isSubB_append_left _ _ _ (isSubB_mem_joinSep x ing hx))
  · unfold containsSubB
    rw [build_prompt_data]
    have h0 : isSubB (joinSep ", " ing).data (joinSep ", " ing).data = true := by
      have := isSubB_self_append (joinSep ", " ing).data []
      simpa using this
    exact isSubB_append_right _ _ _ (isSubB_append_left _ _ _ h0)
  · unfold containsSubB
    rw [build_prompt_data]
    refine isSubB_append_left _ _ _ ?_
    refine isSubB_cons_of _ _ _ ?_
    refine isSubB_cons_of _ _ _ ?_
    refine isSubB_append_left _ _ _ ?_
    refine isSubB_cons_of _ _ _ ?_
    rw [List.append_assoc]
    refine isSubB_append_left _ _ _ ?_
    exact isSubB_self_append _ _
  · unfold hasLineB
    rw [hsp]
    simp only [List.any_append, List.any_cons, List.any_nil, any_ite_nil, any_ite_nil2,
      dm_nil, dm_req, dm_not_header, dm_not_diffline, dm_not_cuisline, dm_not_mealline,
      footer_any_dm, isPrefOf_refl_append, Bool.false_or, Bool.or_false, ite_self]
    by_cases hd : diet.isEmpty <;> simp [hd]
  · unfold hasLineB
    rw [hsp]
    simp only [List.any_append, List.any_cons, List.any_nil, any_ite_nil, any_ite_nil2,
      cm_nil, cm_req, cm_not_header, cm_not_diffline, cm_not_dietline, cm_not_mealline,
      footer_any_cm, isPrefOf_refl_append, Bool.false_or, Bool.or_false, ite_self]
    by_cases hc : optTruthy cuis = true <;> simp [hc]
  · unfold hasLineB
    rw [hsp]
    simp only [List.any_append, List.any_cons, List.any_nil, any_ite_nil, any_ite_nil2,
      mm_nil, mm_req, mm_not_header, mm_not_diffline, mm_not_dietline, mm_not_cuisline,
      footer_any_mm, isPrefOf_refl_append, Bool.false_or, Bool.or_false, ite_self]
    by_cases hm2 : optTruthy meal = true <;> simp [hm2]

/-- C7 witness: a request with ingredients, a dietary restriction and a
cuisine but no meal type produces exactly the expected lines. -/
theorem prompt_lines_amended_witness :
    containsSubB (_build_prompt ["egg"] ["vegan"] (some "italian") none "easy") "egg" = true ∧
    containsSubB (_build_prompt ["egg"] ["vegan"] (some "italian") none "easy") "easy" = true ∧
    hasLineB (_build_prompt ["egg"] ["vegan"] (some "italian") none "easy")
      "- Dietary restrictions: " = true ∧
    hasLineB (_build_prompt ["egg"] ["vegan"] (some "italian") none "easy")
      "- Cuisine type: " = true ∧
    hasLineB (_build_prompt ["egg"] ["vegan"] (some "italian") none "easy")
      "- Meal type: " = false := by
  obtain ⟨h1, h2, h3, h4, h5, h6⟩ := prompt_lines_amended ["egg"] ["vegan"] (some "italian")
    none "easy" (by decide) (by decide) (by decide) (by decide) (by decide)
  refine ⟨h1 "egg" (by decide), h3, ?_, ?_, ?_⟩
  · rw [h4]; rfl
  · rw [h5]; rfl
  · rw [h6]; rfl
